import Mathlib

/-!
Verification development for the FormAnalyser agentic form-processing
repository.  The Python sources (`src/document_processor.py`,
`src/llm_client.py`, `src/tools.py`, `src/agent.py`) are shallowly embedded
as executable Lean definitions over `List Char` strings; external effects
(filesystem reads, the PDF/OCR libraries, and the network round trip to the
language model) are supplied by explicit environment records so that the
control flow of the Python code itself is modelled exactly.
-/

set_option maxHeartbeats 1000000

namespace FormAnalyser

/-- Abbreviation turning a Lean string literal into the `List Char`
representation used throughout the embedding. -/
def S (s : String) : List Char := s.toList

/-- The backtick character (written via its code point). -/
def bq : Char := Char.ofNat 96

/-- The opening-brace character (written via its code point). -/
def obr : Char := Char.ofNat 123

/-- The closing-brace character (written via its code point). -/
def cbr : Char := Char.ofNat 125

/-- Whitespace characters recognised by Python's `str.strip` /
`json.loads` for the inputs that concern us (space, tab, newline,
carriage return). -/
def isWsChar (c : Char) : Bool :=
  c = ' ' || c = '\t' || c = '\n' || c = '\r'

/-- Drop leading whitespace (the leading half of Python's `strip`). -/
def skipWs (s : List Char) : List Char :=
  s.dropWhile isWsChar

/-- Python's `str.strip()`: drop leading and trailing whitespace. -/
def pstrip (s : List Char) : List Char :=
  ((skipWs s).reverse.dropWhile isWsChar).reverse

/-- Python's `not s.strip()`: the string is empty or all whitespace. -/
def isBlank (s : List Char) : Bool :=
  pstrip s = []

/-- Split a character list on a separator character; mirrors Python's
`str.split(sep)` for a one-character separator (always returns at least
one piece). -/
def splitOnChar (c : Char) : List Char → List (List Char)
  | [] => [[]]
  | x :: xs =>
    if x = c then
      [] :: splitOnChar c xs
    else
      match splitOnChar c xs with
      | [] => [[x]]
      | p :: ps => (x :: p) :: ps

/-- Join pieces with a separator character; mirrors Python's
`sep.join(pieces)` for a one-character separator. -/
def joinChar (c : Char) : List (List Char) → List Char
  | [] => []
  | [p] => p
  | p :: ps => p ++ c :: joinChar c ps

/-- Lookup in an association list by key (first match), mirroring a read
from a Python `dict` whose insertion maintained key uniqueness. -/
def lookupKV {β : Type} (l : List (List Char × β)) (k : List Char) : Option β :=
  match l with
  | [] => none
  | (k', v) :: rest => if k' = k then some v else lookupKV rest k

/-- Write `d[k] = v` on a Python `dict` represented as an association
list: an existing key keeps its position and gets the new value, a new
key is appended at the end (Python insertion-order semantics). -/
def insertKV {β : Type} (l : List (List Char × β)) (k : List Char) (v : β) :
    List (List Char × β) :=
  match l with
  | [] => [(k, v)]
  | (k', v') :: rest =>
    if k' = k then (k', v) :: rest else (k', v') :: insertKV rest k v

/-!
JSON values, as produced by Python's `json.loads`.  Number literals are
kept as their source text (the claims never perform arithmetic on them);
object members are stored in insertion order with the Python duplicate-key
rule (last value wins, first position kept) applied at parse time.
-/

/-- A JSON value as decoded by `json.loads`. -/
inductive Json where
  | null : Json
  | bool (b : Bool) : Json
  | num (lit : List Char) : Json
  | str (s : List Char) : Json
  | arr (elems : List Json) : Json
  | obj (members : List (List Char × Json)) : Json

/-- Decidable equality for `Json` (structural). -/
def Json.beq : Json → Json → Bool
  | .null, .null => true
  | .bool b, .bool c => b = c
  | .num l, .num m => l = m
  | .str s, .str t => s = t
  | .arr xs, .arr ys => beqList xs ys
  | .obj xs, .obj ys => beqObj xs ys
  | _, _ => false
where
  beqList : List Json → List Json → Bool
    | [], [] => true
    | x :: xs, y :: ys => Json.beq x y && beqList xs ys
    | _, _ => false
  beqObj : List (List Char × Json) → List (List Char × Json) → Bool
    | [], [] => true
    | (k, v) :: xs, (l, w) :: ys => k = l && Json.beq v w && beqObj xs ys
    | _, _ => false

/-- Json is a JSON object (Python `dict`). -/
def Json.isObj : Json → Bool
  | .obj _ => true
  | _ => false

/-- Member list of a JSON object (empty for non-objects). -/
def Json.objMembers : Json → List (List Char × Json)
  | .obj m => m
  | _ => []

/-- Digit test for the number lexer. -/
def isDigitChar (c : Char) : Bool :=
  '0' ≤ c && c ≤ '9'

/-- Resolve a JSON string escape character (the common single-character
escapes; `\\uXXXX` escapes are outside the modelled subset). -/
def unescape (c : Char) : Option Char :=
  if c = '"' then some '"'
  else if c = '\\' then some '\\'
  else if c = '/' then some '/'
  else if c = 'n' then some '\n'
  else if c = 't' then some '\t'
  else if c = 'r' then some '\r'
  else if c = 'b' then some (Char.ofNat 8)
  else if c = 'f' then some (Char.ofNat 12)
  else none

/-- Parse the body of a JSON string (the opening quote already consumed);
returns the decoded contents and the remaining input. -/
def parseStringBody : List Char → Option (List Char × List Char)
  | [] => none
  | '\\' :: c :: rest =>
    match unescape c with
    | some d =>
      match parseStringBody rest with
      | some (s, r) => some (d :: s, r)
      | none => none
    | none => none
  | c :: rest =>
    if c = '"' then some ([], rest)
    else if c = '\\' then none
    else
      match parseStringBody rest with
      | some (s, r) => some (c :: s, r)
      | none => none

/-- Lex a JSON number starting at the head of the input; returns the
literal text and the remaining input. -/
def parseNumberLit (s : List Char) : Option (List Char × List Char) :=
  let (sign, s1) :=
    match s with
    | '-' :: rest => ([('-' : Char)], rest)
    | _ => ([], s)
  let ds := s1.takeWhile isDigitChar
  let s2 := s1.dropWhile isDigitChar
  if ds.isEmpty then none
  else
    let (frac, s3) :=
      match s2 with
      | '.' :: rest =>
        let fs := rest.takeWhile isDigitChar
        if fs.isEmpty then ([], s2)
        else ('.' :: fs, rest.dropWhile isDigitChar)
      | _ => ([], s2)
    let (expo, s4) :=
      match s3 with
      | c :: rest =>
        if c = 'e' || c = 'E' then
          let (es, rest') :=
            match rest with
            | d :: r => if d = '+' || d = '-' then ([d], r) else ([], rest)
            | [] => ([], rest)
          let xs := rest'.takeWhile isDigitChar
          if xs.isEmpty then (([] : List Char), s3)
          else (c :: (es ++ xs), rest'.dropWhile isDigitChar)
        else ([], s3)
      | [] => ([], s3)
    some (sign ++ ds ++ frac ++ expo, s4)

/-- Classification of the first character of a JSON value, used to
dispatch the recursive-descent parser (mirrors the token dispatch of
Python's `json.loads`). -/
inductive StartTok where
  | litNull | litTrue | litFalse | strTok | arrTok | objTok | numTok | badTok
  deriving DecidableEq

/-- Dispatch on the first character of a JSON value. -/
def startTok (c : Char) : StartTok :=
  if c = 'n' then .litNull
  else if c = 't' then .litTrue
  else if c = 'f' then .litFalse
  else if c = '"' then .strTok
  else if c = '[' then .arrTok
  else if c = obr then .objTok
  else if c = '-' || isDigitChar c then .numTok
  else .badTok

mutual

/-- Fuel-bounded recursive-descent parser for a JSON value, modelling
Python's `json.loads` grammar on the subset exercised here. -/
def parseValue : Nat → List Char → Option (Json × List Char)
  | 0, _ => none
  | fuel + 1, s =>
    match skipWs s with
    | [] => none
    | c :: rest =>
      match startTok c with
      | .litNull =>
        (match rest with
         | 'u' :: 'l' :: 'l' :: r => some (.null, r)
         | _ => none)
      | .litTrue =>
        (match rest with
         | 'r' :: 'u' :: 'e' :: r => some (.bool true, r)
         | _ => none)
      | .litFalse =>
        (match rest with
         | 'a' :: 'l' :: 's' :: 'e' :: r => some (.bool false, r)
         | _ => none)
      | .strTok =>
        (match parseStringBody rest with
         | some (str, r) => some (.str str, r)
         | none => none)
      | .arrTok =>
        (match skipWs rest with
         | ']' :: r => some (.arr [], r)
         | _ => parseElems fuel rest [])
      | .objTok =>
        (match skipWs rest with
         | d :: r =>
           if d = cbr then some (.obj [], r)
           else parseMembers fuel rest []
         | [] => none)
      | .numTok =>
        (match parseNumberLit (c :: rest) with
         | some (lit, r) => some (.num lit, r)
         | none => none)
      | .badTok => none

/-- Parse the elements of a JSON array (after `[`), accumulating in
reverse. -/
def parseElems : Nat → List Char → List Json → Option (Json × List Char)
  | 0, _, _ => none
  | fuel + 1, s, acc =>
    match parseValue fuel s with
    | some (v, rest) =>
      (match skipWs rest with
       | ',' :: r => parseElems fuel r (v :: acc)
       | ']' :: r => some (.arr (v :: acc).reverse, r)
       | _ => none)
    | none => none

/-- Parse the members of a JSON object (after the opening brace),
applying Python's duplicate-key rule via `insertKV`. -/
def parseMembers : Nat → List Char → List (List Char × Json) →
    Option (Json × List Char)
  | 0, _, _ => none
  | fuel + 1, s, acc =>
    match skipWs s with
    | '"' :: rest =>
      match parseStringBody rest with
      | some (key, r1) =>
        (match skipWs r1 with
         | ':' :: r2 =>
           (match parseValue fuel r2 with
            | some (v, r3) =>
              let acc' := insertKV acc key v
              (match skipWs r3 with
               | ',' :: r4 => parseMembers fuel r4 acc'
               | d :: r4 =>
                 if d = cbr then some (.obj acc', r4) else none
               | [] => none)
            | none => none)
         | _ => none)
      | none => none
    | _ => none

end

/-- Embedding of Python's `json.loads`: strict parse of one JSON value
with nothing but whitespace around it, `none` on any parse failure
(`json.JSONDecodeError`). -/
def loads (s : List Char) : Option Json :=
  match parseValue ((pstrip s).length + 1) (pstrip s) with
  | some (v, rest) => if skipWs rest = [] then some v else none
  | none => none

/-!
Structured Generation Protocol: the decode half of
`ClaudeClient.generate_structured` (src/llm_client.py lines 152-170).
The network call `self.generate(...)` is external; its raw text response is
the input here.
-/

/-- Error raised by the decode: Python's
`ValueError("Failed to parse JSON response: ...")` when no brace span is
found, or the propagated `json.JSONDecodeError` when the recovered span
fails to parse; either way the offending text travels with the error. -/
inductive DecodeErr where
  | malformed (offending : List Char) : DecodeErr

/-- The greedy regex `re.search(r'\x7b[\s\S]*\x7d', content)`: the span
from the first opening brace to the last closing brace (which must come
after it), or `none` when no such span exists. -/
def braceSpan (s : List Char) : Option (List Char) :=
  let t := s.dropWhile (fun c => ¬ c = obr)
  let u := (t.reverse.dropWhile (fun c => ¬ c = cbr)).reverse
  if u.isEmpty then none else some u

/-- Strip a leading markdown fence: if the stripped content starts with a
triple backtick, drop its first and last lines (Python `lines[1:-1]`)
before parsing. -/
def stripFence (content : List Char) : List Char :=
  if List.isPrefixOf [bq, bq, bq] content then
    joinChar '\n' (((splitOnChar '\n' content).drop 1).dropLast)
  else content

/-- Parse-with-recovery core of `generate_structured`, applied after
whitespace and fence stripping: strict parse first, then retry on the
greedy brace span, then raise. -/
def decodeCore (content : List Char) : Except DecodeErr Json :=
  match loads content with
  | some j => .ok j
  | none =>
    match braceSpan content with
    | some span =>
      match loads span with
      | some j => .ok j
      | none => .error (.malformed span)
    | none => .error (.malformed content)

/-- Decode half of `ClaudeClient.generate_structured`: strip whitespace,
strip a markdown fence if present, try a strict JSON parse, and on failure
retry on the greedy first-brace-to-last-brace span; raise `DecodeErr`
(Python `ValueError` / `JSONDecodeError`) when that also fails. -/
def generateStructuredDecode (responseContent : List Char) :
    Except DecodeErr Json :=
  decodeCore (stripFence (pstrip responseContent))

/-! Auxiliary lemmas about the character-list operations. -/

theorem dropWhile_cons_false {P : Char → Bool} {c : Char} {l : List Char}
    (h : P c = false) : List.dropWhile P (c :: l) = c :: l := by
  simp [List.dropWhile_cons, h]

theorem head_of_dropWhile {P : Char → Bool} :
    ∀ {l : List Char} {c : Char},
      (List.dropWhile P l).head? = some c → P c = false := by
  intro l
  induction l with
  | nil => intro c h; simp [List.dropWhile] at h
  | cons x xs ih =>
    intro c h
    cases hx : P x with
    | true => rw [List.dropWhile_cons, if_pos hx] at h; exact ih h
    | false =>
      rw [List.dropWhile_cons, if_neg (by simp [hx])] at h
      simp at h
      exact h ▸ hx

theorem dropWhile_eq_self_of_head {P : Char → Bool} {l : List Char}
    (h : ∀ c, l.head? = some c → P c = false) : List.dropWhile P l = l := by
  cases l with
  | nil => rfl
  | cons x xs => exact dropWhile_cons_false (h x rfl)

theorem dropWhile_append_all {P : Char → Bool} {l₁ l₂ : List Char}
    (h : ∀ c ∈ l₁, P c = true) :
    List.dropWhile P (l₁ ++ l₂) = List.dropWhile P l₂ := by
  induction l₁ with
  | nil => rfl
  | cons x xs ih =>
    rw [List.cons_append, List.dropWhile_cons, if_pos (h x (by simp))]
    exact ih fun c hc => h c (by simp [hc])

theorem pstrip_head {s : List Char} {c : Char}
    (h : (pstrip s).head? = some c) : isWsChar c = false := by
  unfold pstrip at h
  rw [List.head?_reverse] at h
  have hne : (skipWs s).reverse.dropWhile isWsChar ≠ [] := by
    intro hnil; rw [hnil] at h; simp at h
  have hsplit := List.takeWhile_append_dropWhile (p := isWsChar)
    (l := (skipWs s).reverse)
  have h3 : ((skipWs s).reverse).getLast? = some c := by
    rw [← hsplit, List.getLast?_append_of_ne_nil _ hne]
    exact h
  rw [List.getLast?_reverse] at h3
  unfold skipWs at h3
  exact head_of_dropWhile h3

theorem pstrip_last {s : List Char} {c : Char}
    (h : (pstrip s).getLast? = some c) : isWsChar c = false := by
  unfold pstrip at h
  rw [List.getLast?_reverse] at h
  exact head_of_dropWhile h

theorem pstrip_eq_self {s : List Char}
    (h1 : ∀ c, s.head? = some c → isWsChar c = false)
    (h2 : ∀ c, s.getLast? = some c → isWsChar c = false) : pstrip s = s := by
  unfold pstrip skipWs
  rw [dropWhile_eq_self_of_head h1]
  rw [dropWhile_eq_self_of_head (by intro c hc; rw [List.head?_reverse] at hc; exact h2 c hc)]
  exact List.reverse_reverse s

theorem pstrip_idem (s : List Char) : pstrip (pstrip s) = pstrip s :=
  pstrip_eq_self (fun _ h => pstrip_head h) (fun _ h => pstrip_last h)

theorem loads_pstrip (s : List Char) : loads (pstrip s) = loads s := by
  simp only [loads, pstrip_idem]

theorem splitOnChar_ne_nil (c : Char) (s : List Char) : splitOnChar c s ≠ [] := by
  cases s with
  | nil => simp [splitOnChar]
  | cons x xs =>
    unfold splitOnChar
    by_cases hx : x = c
    · simp [hx]
    · simp only [if_neg hx]
      match splitOnChar c xs with
      | [] => simp
      | p :: ps => simp

theorem splitOnChar_append (c : Char) (A B : List Char) :
    splitOnChar c (A ++ c :: B) = splitOnChar c A ++ splitOnChar c B := by
  induction A with
  | nil => simp [splitOnChar]
  | cons x xs ih =>
    rw [List.cons_append]
    by_cases hx : x = c
    · subst hx
      show splitOnChar x (x :: (xs ++ x :: B)) = splitOnChar x (x :: xs) ++ _
      unfold splitOnChar
      simp only [if_pos rfl, ih, List.cons_append]
      cases B <;> simp [splitOnChar]
    · match h : splitOnChar c xs with
      | [] => exact absurd h (splitOnChar_ne_nil c xs)
      | p :: ps =>
        show splitOnChar c (x :: (xs ++ c :: B)) = splitOnChar c (x :: xs) ++ _
        unfold splitOnChar
        simp only [if_neg hx, ih, h, List.cons_append]
        cases B <;> simp [splitOnChar]

theorem splitOnChar_not_mem {c : Char} {s : List Char} (h : c ∉ s) :
    splitOnChar c s = [s] := by
  induction s with
  | nil => rfl
  | cons x xs ih =>
    have hx : ¬ x = c := fun he => h (by simp [he])
    have hxs : c ∉ xs := fun hm => h (by simp [hm])
    simp only [splitOnChar, if_neg hx, ih hxs]

theorem joinChar_splitOnChar (c : Char) (s : List Char) :
    joinChar c (splitOnChar c s) = s := by
  induction s with
  | nil => rfl
  | cons x xs ih =>
    by_cases hx : x = c
    · subst hx
      simp only [splitOnChar, if_pos rfl]
      match h : splitOnChar x xs with
      | [] => exact absurd h (splitOnChar_ne_nil x xs)
      | p :: ps =>
        rw [h] at ih
        simp [joinChar, ih]
    · simp only [splitOnChar, if_neg hx]
      match h : splitOnChar c xs with
      | [] => exact absurd h (splitOnChar_ne_nil c xs)
      | p :: ps =>
        rw [h] at ih
        cases ps with
        | nil => simpa [joinChar] using congrArg (x :: ·) ih
        | cons q qs => simpa [joinChar] using congrArg (x :: ·) ih

/-! Lemmas about the parser needed for the decode theorems. -/

theorem parseValue_badTok {fuel : Nat} {s : List Char} {c : Char} {rest : List Char}
    (hs : skipWs s = c :: rest) (hc : startTok c = .badTok) :
    parseValue (fuel + 1) s = none := by
  simp only [parseValue, hs, hc]

theorem loads_no_fence {s : List Char} {j : Json} (h : loads s = some j) :
    List.isPrefixOf [bq, bq, bq] (pstrip s) = false := by
  by_contra hc
  have hc' : List.isPrefixOf [bq, bq, bq] (pstrip s) = true := by
    simpa using hc
  have hpre : [bq, bq, bq] <+: pstrip s := List.isPrefixOf_iff_prefix.mp hc'
  obtain ⟨t, ht⟩ := hpre
  have hskip : skipWs (pstrip s) = bq :: (bq :: bq :: t) := by
    rw [← ht]
    exact dropWhile_cons_false (by decide)
  have hbad : parseValue ((pstrip s).length + 1) (pstrip s) = none :=
    parseValue_badTok hskip (by decide)
  unfold loads at h
  rw [hbad] at h
  exact Option.noConfusion h

theorem stripFence_of_loads {s : List Char} {j : Json} (h : loads s = some j) :
    stripFence (pstrip s) = pstrip s := by
  unfold stripFence
  rw [loads_no_fence h]
  simp

theorem decodeCore_of_loads {content : List Char} {j : Json}
    (h : loads content = some j) : decodeCore content = .ok j := by
  simp [decodeCore, h]

/-- A markdown-fenced code block around `text`: first line an opening
fence (optionally language-tagged), last line a closing fence. -/
def fenceWrap (tag text : List Char) : List Char :=
  [bq, bq, bq] ++ tag ++ '\n' :: text ++ '\n' :: [bq, bq, bq]

theorem fenceWrap_getLast (tag text : List Char) :
    (fenceWrap tag text).getLast? = some bq := by
  have hF : fenceWrap tag text =
      ([bq, bq, bq] ++ tag) ++ '\n' :: (text ++ '\n' :: [bq, bq, bq]) := by
    simp [fenceWrap]
  rw [hF, List.getLast?_append_cons, ← List.cons_append,
    List.getLast?_append_cons]
  rfl

theorem pstrip_fenceWrap (tag text : List Char) :
    pstrip (fenceWrap tag text) = fenceWrap tag text := by
  apply pstrip_eq_self
  · intro c hc
    have h1 : (fenceWrap tag text).head? = some bq := rfl
    have : c = bq := Option.some.inj (hc.symm.trans h1)
    subst this; decide
  · intro c hc
    have : c = bq := Option.some.inj (hc.symm.trans (fenceWrap_getLast tag text))
    subst this; decide

theorem stripFence_fenceWrap {tag : List Char} (text : List Char)
    (htag : ('\n' : Char) ∉ tag) :
    stripFence (fenceWrap tag text) = text := by
  have hpre : List.isPrefixOf [bq, bq, bq] (fenceWrap tag text) = true := by
    apply List.isPrefixOf_iff_prefix.mpr
    exact ⟨tag ++ '\n' :: text ++ '\n' :: [bq, bq, bq], by simp [fenceWrap]⟩
  have hmem : ('\n' : Char) ∉ ([bq, bq, bq] ++ tag) := by
    intro hm
    rcases List.mem_append.mp hm with h | h
    · exact absurd h (by decide)
    · exact htag h
  have hsp1 : splitOnChar '\n' ([bq, bq, bq] ++ tag) = [[bq, bq, bq] ++ tag] :=
    splitOnChar_not_mem hmem
  have hsp3 : splitOnChar '\n' [bq, bq, bq] = [[bq, bq, bq]] :=
    splitOnChar_not_mem (by decide)
  have hsplit : splitOnChar '\n' (fenceWrap tag text) =
      ([bq, bq, bq] ++ tag) :: (splitOnChar '\n' text ++ [[bq, bq, bq]]) := by
    have hF : fenceWrap tag text =
        ([bq, bq, bq] ++ tag) ++ '\n' :: (text ++ '\n' :: [bq, bq, bq]) := by
      simp [fenceWrap]
    rw [hF, splitOnChar_append, splitOnChar_append, hsp1, hsp3]
    simp
  unfold stripFence
  rw [hpre]
  simp only [if_pos rfl, hsplit]
  rw [List.drop_one, List.tail_cons, List.dropLast_concat]
  exact joinChar_splitOnChar '\n' text

theorem braceSpan_surround {p1 p2 text t0 t1 : List Char}
    (hp1 : ∀ c ∈ p1, c ≠ obr ∧ c ≠ cbr) (hp2 : ∀ c ∈ p2, c ≠ obr ∧ c ≠ cbr)
    (hhead : text = obr :: t0) (hlast : text = t1 ++ [cbr]) :
    braceSpan (p1 ++ text ++ p2) = some text := by
  have hdrop1 : (p1 ++ text ++ p2).dropWhile (fun c => ¬ c = obr) = text ++ p2 := by
    rw [List.append_assoc, dropWhile_append_all (by
      intro c hc; simp [(hp1 c hc).1])]
    rw [hhead]
    exact dropWhile_cons_false (by simp)
  have hdrop2 : ((text ++ p2).reverse.dropWhile (fun c => ¬ c = cbr)).reverse
      = text := by
    rw [List.reverse_append, dropWhile_append_all (by
      intro c hc; simp [(hp2 c (List.mem_reverse.mp hc)).2])]
    rw [hlast, List.reverse_append]
    simp only [List.reverse_cons, List.reverse_nil, List.nil_append,
      List.singleton_append]
    rw [dropWhile_cons_false (by simp)]
    simp [← hlast]
  unfold braceSpan
  simp only [hdrop1, hdrop2]
  rw [hhead]
  simp

/-- C2: the structured-generation decode succeeds on (a) bare JSON, (b)
that JSON wrapped in a fenced code block (first and last lines stripped),
and (c) that JSON surrounded by brace-free prose (recovered via the greedy
first-brace-to-last-brace span); it fails exactly when neither the
stripped content nor its greedy brace span parses as JSON, the raised
error carries the offending text, and any mapping it returns was actually
parsed from the response (never silently fabricated). -/
theorem generate_structured_decode_recovers
    (j : Json) (text tag p1 p2 t0 t1 : List Char)
    (hbare : loads text = some j)
    (htag : ('\n' : Char) ∉ tag)
    (hp1 : ∀ c ∈ p1, c ≠ obr ∧ c ≠ cbr) (hp2 : ∀ c ∈ p2, c ≠ obr ∧ c ≠ cbr)
    (hhead : text = obr :: t0) (hlast : text = t1 ++ [cbr])
    (htrim : pstrip (p1 ++ text ++ p2) = p1 ++ text ++ p2)
    (hfence : List.isPrefixOf [bq, bq, bq] (p1 ++ text ++ p2) = false)
    (hwhole : loads (p1 ++ text ++ p2) = none) :
    generateStructuredDecode text = .ok j
    ∧ generateStructuredDecode (fenceWrap tag text) = .ok j
    ∧ generateStructuredDecode (p1 ++ text ++ p2) = .ok j
    ∧ (∀ s, (∃ e, generateStructuredDecode s = .error e) ↔
        (loads (stripFence (pstrip s)) = none ∧
          ∀ sp, braceSpan (stripFence (pstrip s)) = some sp → loads sp = none))
    ∧ (∀ s e, generateStructuredDecode s = .error e →
        e = .malformed (stripFence (pstrip s)) ∨
          ∃ sp, braceSpan (stripFence (pstrip s)) = some sp ∧ e = .malformed sp)
    ∧ (∀ s k, generateStructuredDecode s = .ok k →
        loads (stripFence (pstrip s)) = some k ∨
          ∃ sp, braceSpan (stripFence (pstrip s)) = some sp ∧ loads sp = some k) := by
  refine ⟨?_, ?_, ?_, ?_, ?_, ?_⟩
  · unfold generateStructuredDecode
    rw [stripFence_of_loads hbare]
    exact decodeCore_of_loads (by rw [loads_pstrip]; exact hbare)
  · unfold generateStructuredDecode
    rw [pstrip_fenceWrap, stripFence_fenceWrap text htag]
    exact decodeCore_of_loads hbare
  · unfold generateStructuredDecode
    rw [htrim]
    have hsf : stripFence (p1 ++ text ++ p2) = p1 ++ text ++ p2 := by
      unfold stripFence
      rw [hfence]
      simp
    rw [hsf]
    unfold decodeCore
    simp only [hwhole, braceSpan_surround hp1 hp2 hhead hlast, hbare]
  · intro s
    unfold generateStructuredDecode decodeCore
    cases hl : loads (stripFence (pstrip s)) with
    | some k => simp [hl]
    | none =>
      cases hb : braceSpan (stripFence (pstrip s)) with
      | none => simp [hl, hb]
      | some sp =>
        cases hsp : loads sp with
        | some k => simp [hl, hb, hsp]
        | none => simp [hl, hb, hsp]
  · intro s e he
    unfold generateStructuredDecode decodeCore at he
    cases hl : loads (stripFence (pstrip s)) with
    | some k => simp [hl] at he
    | none =>
      simp only [hl] at he
      cases hb : braceSpan (stripFence (pstrip s)) with
      | none =>
        simp only [hb] at he
        simp at he
        left; exact he.symm
      | some sp =>
        simp only [hb] at he
        cases hsp : loads sp with
        | some k => simp [hsp] at he
        | none =>
          simp only [hsp] at he
          simp at he
          right; exact ⟨sp, rfl, he.symm⟩
  · intro s k hk
    unfold generateStructuredDecode decodeCore at hk
    cases hl : loads (stripFence (pstrip s)) with
    | some kk =>
      simp only [hl] at hk
      simp at hk
      left; simp [hk]
    | none =>
      simp only [hl] at hk
      cases hb : braceSpan (stripFence (pstrip s)) with
      | none => simp [hb] at hk
      | some sp =>
        simp only [hb] at hk
        cases hsp : loads sp with
        | some kk =>
          simp only [hsp] at hk
          simp at hk
          right; exact ⟨sp, rfl, by rw [hsp]; simp [hk]⟩
        | none => simp [hsp] at hk

/-- Witness for the decode theorem at a concrete response: the mapping
`\x7b"a": 1\x7d` is recovered bare, fenced, and surrounded by prose. -/
theorem generate_structured_decode_recovers_witness :
    generateStructuredDecode ([obr] ++ S "\"a\": 1" ++ [cbr]) =
      .ok (Json.obj [(S "a", Json.num (S "1"))])
    ∧ generateStructuredDecode
        (fenceWrap (S "json") ([obr] ++ S "\"a\": 1" ++ [cbr])) =
      .ok (Json.obj [(S "a", Json.num (S "1"))])
    ∧ generateStructuredDecode
        (S "Sure! Here is the JSON: " ++ ([obr] ++ S "\"a\": 1" ++ [cbr]) ++
          S " -- end of answer.") =
      .ok (Json.obj [(S "a", Json.num (S "1"))]) := by
  have h := generate_structured_decode_recovers
    (Json.obj [(S "a", Json.num (S "1"))])
    ([obr] ++ S "\"a\": 1" ++ [cbr])
    (S "json")
    (S "Sure! Here is the JSON: ")
    (S " -- end of answer.")
    (S "\"a\": 1" ++ [cbr])
    ([obr] ++ S "\"a\": 1")
    (by rfl) (by decide) (by decide) (by decide) (by rfl) (by rfl)
    (by rfl) (by rfl) (by rfl)
  exact ⟨h.1, h.2.1, h.2.2.1⟩

/-!
Document processor (src/document_processor.py).  Filesystem reads and the
optional extraction libraries (pdfplumber, pdf2image, pytesseract, PIL)
are supplied by an explicit environment of deterministic oracles keyed by
the resolved path; the control flow of `DocumentProcessor` itself is
embedded exactly.
-/

/-- The apostrophe character (used by Python `repr` of strings). -/
def sq : Char := Char.ofNat 39

/-- A metadata value (the `Dict[str, Any]` entries the processor writes:
counts, strings, flags, parsed PDF info, image sizes, and the OCR
average confidence stored as an exact sum/count pair). -/
inductive MVal where
  | nat (n : Nat)
  | str (s : List Char)
  | bool (b : Bool)
  | json (j : Json)
  | pair (a b : Nat)
  | frac (sum : Nat) (count : Nat)

/-- The `ExtractedDocument` dataclass (the `images` byte list and the
wall-clock `extracted_at` timestamp are outside the embedding). -/
structure ExtractedDocument where
  file_path : List Char
  file_type : List Char
  raw_text : List Char
  pages : List (List Char) := []
  tables : List (List (List (List Char))) := []
  metadata : List (List Char × MVal) := []
  extraction_method : List Char := S "unknown"

/-- The closed extension-to-format lookup table of
`DocumentProcessor._detect_file_type`, with its `"txt"` default. -/
def typeMap (ext : List Char) : List Char :=
  if ext = S ".pdf" then S "pdf"
  else if ext = S ".png" then S "png"
  else if ext = S ".jpg" then S "jpg"
  else if ext = S ".jpeg" then S "jpeg"
  else if ext = S ".tiff" then S "tiff"
  else if ext = S ".tif" then S "tiff"
  else if ext = S ".bmp" then S "bmp"
  else if ext = S ".txt" then S "txt"
  else if ext = S ".text" then S "txt"
  else if ext = S ".json" then S "json"
  else if ext = S ".csv" then S "csv"
  else if ext = S ".html" then S "html"
  else if ext = S ".htm" then S "html"
  else if ext = S ".md" then S "markdown"
  else if ext = S ".markdown" then S "markdown"
  else S "txt"

/-- `Path(file_path).suffix`: the extension of the final path component;
empty when the name has no dot, when the only dot leads the name, or when
the dot is final. -/
def pathSuffix (p : List Char) : List Char :=
  let name := (splitOnChar '/' p).getLastD []
  let after := (name.reverse.takeWhile (fun c => ¬ c = '.')).reverse
  if after.length = name.length then []
  else if after.length = 0 then []
  else if name.length = after.length + 1 then []
  else '.' :: after

/-- `DocumentProcessor._detect_file_type`: pure lookup on the lowercased
extension (no content sniffing appears in the code). -/
def detectFileType (p : List Char) : List Char :=
  typeMap ((pathSuffix p).map Char.toLower)

mutual

/-- Python `str()` applied to a value decoded from JSON (scalars print
bare; containers print via `repr`; number literals keep their source
text in this model). -/
def pyStr : Json → List Char
  | .null => S "None"
  | .bool true => S "True"
  | .bool false => S "False"
  | .num lit => lit
  | .str s => s
  | .arr xs => '[' :: (pyReprList xs ++ [']'])
  | .obj ms => obr :: (pyReprObj ms ++ [cbr])

/-- Python `repr()` of a JSON-decoded value (strings single-quoted). -/
def pyRepr : Json → List Char
  | .null => S "None"
  | .bool true => S "True"
  | .bool false => S "False"
  | .num lit => lit
  | .str s => sq :: (s ++ [sq])
  | .arr xs => '[' :: (pyReprList xs ++ [']'])
  | .obj ms => obr :: (pyReprObj ms ++ [cbr])

/-- Comma-separated `repr` of list elements. -/
def pyReprList : List Json → List Char
  | [] => []
  | [x] => pyRepr x
  | x :: xs => pyRepr x ++ ',' :: ' ' :: pyReprList xs

/-- Comma-separated `repr` of dict members. -/
def pyReprObj : List (List Char × Json) → List Char
  | [] => []
  | [(k, v)] => sq :: (k ++ sq :: ':' :: ' ' :: pyRepr v)
  | (k, v) :: ms =>
    sq :: (k ++ sq :: ':' :: ' ' :: pyRepr v) ++ ',' :: ' ' :: pyReprObj ms

end

/-- Stringify one JSON table cell: `str(row.get(h, ""))`. -/
def rowCell (row : Json) (h : List Char) : List Char :=
  match row with
  | .obj m =>
    (match lookupKV m h with
     | some v => pyStr v
     | none => [])
  | _ => []

/-- Table synthesis of `_process_text` for JSON bodies: if the parsed
value is a non-empty array whose first element is an object, build one
table of the first object's keys plus one stringified row per element.
A parse failure — or the `AttributeError` a non-object element raises
inside the bare `try` (only reachable when there is at least one header,
since `row.get` is never called otherwise) — silently yields no tables. -/
def jsonTables (content : List Char) : List (List (List (List Char))) :=
  match loads content with
  | some (Json.arr (d0 :: rest)) =>
    (match d0 with
     | Json.obj kvs =>
       let headers := kvs.map Prod.fst
       if headers.isEmpty || (Json.obj kvs :: rest).all Json.isObj then
         [headers :: (Json.obj kvs :: rest).map (fun r => headers.map (rowCell r))]
       else []
     | _ => [])
  | _ => []

/-- One PDF document as surfaced by pdfplumber: per-page text, per-page
tables with optional cells, and the `pdf.metadata` mapping. -/
structure PdfDoc where
  pages : List (List Char)
  tables : List (List (List (Option (List Char))))
  info : Json

/-- Width, height and colour mode of an opened image. -/
structure ImgInfo where
  width : Nat
  height : Nat
  mode : List Char

/-- Ingestion errors: `FileNotFoundError`, `ImportError`, or a
propagated library exception (image decode / OCR engine failures in
`_process_image`). -/
inductive IngestErr where
  | notFound (path : List Char)
  | importErr (msg : List Char)
  | runtime (msg : List Char)

/-- External world of `DocumentProcessor`: the filesystem and the
optional extraction libraries, as deterministic oracles keyed by the
resolved path.  A `Bool` field models whether the corresponding `import`
succeeds; an `Except` result models a library call that can raise. -/
structure Env where
  resolve : List Char → List Char
  fileExists : List Char → Bool
  fileContent : List Char → List Char
  csvParse : List Char → List (List (List Char))
  ocr_enabled : Bool
  pdfplumberOk : Bool
  pdfOpen : List Char → Except (List Char) PdfDoc
  ocrImportsOk : Bool
  ocrRun : List Char → Except (List Char) (List Char × List (List Char))
  pilOk : Bool
  imageOpen : List Char → Except (List Char) ImgInfo
  tessString : List Char → Except (List Char) (List Char)
  tessData : List Char → Except (List Char) (List Nat)

/-- `DocumentProcessor._ocr_pdf`: returns `("", [])` when the OCR imports
fail (the caught `ImportError`); otherwise runs the rasterise-and-
recognise pipeline, whose exceptions propagate to the caller. -/
def ocrPdf (env : Env) (rp : List Char) :
    Except (List Char) (List Char × List (List Char)) :=
  if env.ocrImportsOk then env.ocrRun rp else .ok ([], [])

/-- One `\n--- Page i+1 ---\n` separator plus the page text. -/
def pageMarker (i : Nat) (pg : List Char) : List Char :=
  '\n' :: (S "--- Page " ++ Nat.toDigits 10 (i + 1) ++ S " ---") ++ '\n' :: pg

/-- The concatenated `all_text` of the `_process_pdf` page loop. -/
def pagesText (pages : List (List Char)) : List Char :=
  (pages.enum.map (fun p => pageMarker p.1 p.2)).flatten

/-- Cell normalisation of `_process_pdf`:
`str(cell).strip() if cell else ""`. -/
def cleanCell : Option (List Char) → List Char
  | none => []
  | some s => pstrip s

/-- Per-page table extraction of `_process_pdf` (empty tables are
skipped by the `if table:` test). -/
def cleanTables (ts : List (List (List (Option (List Char))))) :
    List (List (List (List Char))) :=
  (ts.filter (fun t => ¬ t.isEmpty)).map
    (fun t => t.map (fun row => row.map cleanCell))

/-- `DocumentProcessor._process_pdf` with the library calls supplied by
the environment.  The `try` body is modelled as all-or-nothing at
`pdfplumber.open` (the error value is the exception text the handler
records); an exception escaping the in-`try` OCR fallback reaches the
outer handler, whose own OCR retry fails identically and is swallowed
by the bare `except: pass`. -/
def processPdf (env : Env) (rp : List Char) :
    Except IngestErr ExtractedDocument :=
  if ¬ env.pdfplumberOk then
    .error (.importErr (S "pdfplumber required: pip install pdfplumber"))
  else
    match env.pdfOpen rp with
    | .ok pd =>
      if isBlank (pagesText pd.pages) ∧ env.ocr_enabled then
        match ocrPdf env rp with
        | .ok (t, ps) =>
          .ok { file_path := rp, file_type := S "pdf", raw_text := pstrip t,
                pages := ps, tables := cleanTables pd.tables,
                metadata := [(S "page_count", MVal.nat pd.pages.length),
                             (S "pdf_info", MVal.json pd.info),
                             (S "ocr_used", MVal.bool true)],
                extraction_method := S "ocr" }
        | .error e =>
          .ok { file_path := rp, file_type := S "pdf",
                raw_text := pstrip (pagesText pd.pages),
                pages := pd.pages, tables := cleanTables pd.tables,
                metadata := [(S "page_count", MVal.nat pd.pages.length),
                             (S "pdf_info", MVal.json pd.info),
                             (S "error", MVal.str e)],
                extraction_method := S "pdfplumber" }
      else
        .ok { file_path := rp, file_type := S "pdf",
              raw_text := pstrip (pagesText pd.pages),
              pages := pd.pages, tables := cleanTables pd.tables,
              metadata := [(S "page_count", MVal.nat pd.pages.length),
                           (S "pdf_info", MVal.json pd.info)],
              extraction_method := S "pdfplumber" }
    | .error e =>
      if env.ocr_enabled then
        match ocrPdf env rp with
        | .ok (t, ps) =>
          .ok { file_path := rp, file_type := S "pdf", raw_text := pstrip t,
                pages := ps, tables := [],
                metadata := [(S "error", MVal.str e),
                             (S "ocr_used", MVal.bool true)],
                extraction_method := S "ocr" }
        | .error _ =>
          .ok { file_path := rp, file_type := S "pdf", raw_text := [],
                pages := [], tables := [],
                metadata := [(S "error", MVal.str e)],
                extraction_method := S "pdfplumber" }
      else
        .ok { file_path := rp, file_type := S "pdf", raw_text := [],
              pages := [], tables := [],
              metadata := [(S "error", MVal.str e)],
              extraction_method := S "pdfplumber" }

/-- Average OCR confidence of `_process_image`: positive detections only,
0 when there are none or when `image_to_data` raises. -/
def avgConf (e : Except (List Char) (List Nat)) : MVal :=
  match e with
  | .error _ => .nat 0
  | .ok confs =>
    let pos := confs.filter (fun c => 0 < c)
    if pos.isEmpty then .nat 0 else .frac pos.sum pos.length

/-- `DocumentProcessor._process_image`: an empty document with an error
note when OCR is disabled; `ImportError` when PIL/pytesseract are
missing; `Image.open` and `image_to_string` exceptions propagate. -/
def processImage (env : Env) (rp : List Char) :
    Except IngestErr ExtractedDocument :=
  if ¬ env.ocr_enabled then
    .ok { file_path := rp, file_type := detectFileType rp, raw_text := [],
          metadata := [(S "error", MVal.str (S "OCR disabled"))] }
  else if ¬ env.pilOk then
    .error (.importErr (S "Pillow and pytesseract required for image processing"))
  else
    match env.imageOpen rp with
    | .error e => .error (.runtime e)
    | .ok img =>
      match env.tessString rp with
      | .error e => .error (.runtime e)
      | .ok text =>
        .ok { file_path := rp, file_type := detectFileType rp,
              raw_text := pstrip text, pages := [text],
              metadata := [(S "image_size", MVal.pair img.width img.height),
                           (S "image_mode", MVal.str img.mode),
                           (S "ocr_confidence", avgConf (env.tessData rp))],
              extraction_method := S "ocr" }

/-- `DocumentProcessor._process_text`: read (never raises thanks to the
latin-1 fallback), tabulate CSV via the csv module or JSON via the
synthesis above, and record character/line counts. -/
def processText (env : Env) (rp : List Char) :
    Except IngestErr ExtractedDocument :=
  .ok { file_path := rp, file_type := detectFileType rp,
        raw_text := pstrip (env.fileContent rp),
        pages := [env.fileContent rp],
        tables :=
          if detectFileType rp = S "csv" then
            [env.csvParse (env.fileContent rp)]
          else if detectFileType rp = S "json" then
            jsonTables (env.fileContent rp)
          else [],
        metadata := [(S "char_count", MVal.nat (env.fileContent rp).length),
                     (S "line_count",
                       MVal.nat (((env.fileContent rp).count '\n') + 1))],
        extraction_method := S "text" }

/-- The image file-type tags dispatched to `_process_image`. -/
def imageTypes : List (List Char) :=
  [S "png", S "jpg", S "jpeg", S "tiff", S "bmp"]

/-- `DocumentProcessor.process`: resolve the path, raise
`FileNotFoundError` when it does not exist, then dispatch on the
detected type. -/
def process (env : Env) (file_path : List Char) :
    Except IngestErr ExtractedDocument :=
  if ¬ env.fileExists (env.resolve file_path) then
    .error (.notFound (env.resolve file_path))
  else if detectFileType (env.resolve file_path) = S "pdf" then
    processPdf env (env.resolve file_path)
  else if detectFileType (env.resolve file_path) ∈ imageTypes then
    processImage env (env.resolve file_path)
  else
    processText env (env.resolve file_path)

/-!
Claims C4, C8, C3 and C6 about ingestion.
-/

/-- A concrete environment for witnesses: every path exists, pdfplumber
imports but its extraction raises, the OCR imports fail, text files are
empty unless overridden. -/
def baseEnv : Env where
  resolve := fun p => p
  fileExists := fun _ => true
  fileContent := fun _ => []
  csvParse := fun _ => []
  ocr_enabled := true
  pdfplumberOk := true
  pdfOpen := fun _ => .error (S "pdf boom")
  ocrImportsOk := false
  ocrRun := fun _ => .error (S "ocr boom")
  pilOk := true
  imageOpen := fun _ => .error (S "img boom")
  tessString := fun _ => .error (S "tess boom")
  tessData := fun _ => .error (S "data boom")

/-- C4: ingesting a path that does not exist raises `FileNotFoundError`
and returns no document (the check precedes all extraction work). -/
theorem process_missing_raises_notFound (env : Env) (p : List Char)
    (h : env.fileExists (env.resolve p) = false) :
    process env p = .error (.notFound (env.resolve p)) := by
  unfold process
  rw [h]
  simp

/-- Witness: a missing path yields exactly the `NotFound` error. -/
theorem process_missing_raises_notFound_witness :
    process { baseEnv with fileExists := fun _ => false } (S "absent.pdf") =
      .error (.notFound (S "absent.pdf")) :=
  process_missing_raises_notFound
    { baseEnv with fileExists := fun _ => false } (S "absent.pdf") rfl

/-- The fifteen recognised extensions of the lookup table. -/
def recognizedExts : List (List Char) :=
  [S ".pdf", S ".png", S ".jpg", S ".jpeg", S ".tiff", S ".tif", S ".bmp",
   S ".txt", S ".text", S ".json", S ".csv", S ".html", S ".htm",
   S ".md", S ".markdown"]

/-- C8: the detected format tag is a pure function of the lowercased
file extension via the closed lookup table — equal extensions give equal
tags, each recognised extension maps to its single tabulated tag, and
every unrecognised extension defaults to plain text. -/
theorem detect_file_type_pure_table :
    (∀ p q : List Char,
      (pathSuffix p).map Char.toLower = (pathSuffix q).map Char.toLower →
        detectFileType p = detectFileType q)
    ∧ (∀ p : List Char,
        detectFileType p = typeMap ((pathSuffix p).map Char.toLower))
    ∧ (typeMap (S ".pdf") = S "pdf" ∧ typeMap (S ".png") = S "png"
       ∧ typeMap (S ".jpg") = S "jpg" ∧ typeMap (S ".jpeg") = S "jpeg"
       ∧ typeMap (S ".tiff") = S "tiff" ∧ typeMap (S ".tif") = S "tiff"
       ∧ typeMap (S ".bmp") = S "bmp" ∧ typeMap (S ".txt") = S "txt"
       ∧ typeMap (S ".text") = S "txt" ∧ typeMap (S ".json") = S "json"
       ∧ typeMap (S ".csv") = S "csv" ∧ typeMap (S ".html") = S "html"
       ∧ typeMap (S ".htm") = S "html" ∧ typeMap (S ".md") = S "markdown"
       ∧ typeMap (S ".markdown") = S "markdown")
    ∧ (∀ ext : List Char, ext ∉ recognizedExts → typeMap ext = S "txt") := by
  refine ⟨?_, fun _ => rfl, by decide, ?_⟩
  · intro p q h
    unfold detectFileType
    rw [h]
  · intro ext hext
    simp only [recognizedExts, List.mem_cons, List.not_mem_nil, or_false,
      not_or] at hext
    obtain ⟨h1, h2, h3, h4, h5, h6, h7, h8, h9, h10, h11, h12, h13, h14, h15⟩ :=
      hext
    simp [typeMap, h1, h2, h3, h4, h5, h6, h7, h8, h9, h10, h11, h12, h13,
      h14, h15]

/-- Witness: two distinct paths with the same (case-folded) extension get
the same tag, and an unrecognised extension falls back to text. -/
theorem detect_file_type_pure_table_witness :
    detectFileType (S "a/report.PDF") = detectFileType (S "b/2024.pdf")
    ∧ typeMap (S ".xyz") = S "txt" :=
  ⟨detect_file_type_pure_table.1 (S "a/report.PDF") (S "b/2024.pdf")
      (by decide),
    detect_file_type_pure_table.2.2.2 (S ".xyz") (by decide)⟩

/-- Counterexample to C3 as stated: an existing PDF whose extraction
library fails to import makes ingestion raise `ImportError` — an
extraction-library import error does not degrade to a partial document. -/
theorem process_importError_counterexample :
    process { baseEnv with pdfplumberOk := false } (S "form.pdf") =
      .error (.importErr (S "pdfplumber required: pip install pdfplumber"))
      ∧ ({ baseEnv with pdfplumberOk := false } : Env).fileExists
          (S "form.pdf") = true := by
  exact ⟨rfl, rfl⟩

/-- C3 (amended): for an existing file, every failure other than a
missing extraction library (and, for images, an image-decode or
OCR-engine failure) degrades to a returned document — a PDF whose
extraction raises still yields a document carrying the exception text as
an `error` metadata note, an image with OCR disabled yields an
empty-text document with an error note, and every text-like file
(including unparseable JSON) always yields a document. -/
theorem ingestion_soft_failures (env : Env) (p : List Char)
    (hex : env.fileExists (env.resolve p) = true) :
    (detectFileType (env.resolve p) = S "pdf" → env.pdfplumberOk = true →
      ∃ d, process env p = .ok d ∧
        (∀ e, env.pdfOpen (env.resolve p) = .error e →
          lookupKV d.metadata (S "error") = some (MVal.str e)))
    ∧ (detectFileType (env.resolve p) ∈ imageTypes → env.ocr_enabled = false →
        ∃ d, process env p = .ok d ∧ d.raw_text = [] ∧
          lookupKV d.metadata (S "error") =
            some (MVal.str (S "OCR disabled")))
    ∧ (detectFileType (env.resolve p) ≠ S "pdf" →
        detectFileType (env.resolve p) ∉ imageTypes →
        ∃ d, process env p = .ok d) := by
  have hdispatch : process env p =
      (if detectFileType (env.resolve p) = S "pdf" then
        processPdf env (env.resolve p)
      else if detectFileType (env.resolve p) ∈ imageTypes then
        processImage env (env.resolve p)
      else processText env (env.resolve p)) := by
    unfold process
    rw [hex]
    simp
  refine ⟨?_, ?_, ?_⟩
  · intro hft hlib
    rw [hdispatch, if_pos hft]
    unfold processPdf
    rw [hlib]
    rw [if_neg (by simp)]
    cases hopen : env.pdfOpen (env.resolve p) with
    | ok pd =>
      dsimp only
      by_cases hblank :
          (isBlank (pagesText pd.pages) = true ∧ env.ocr_enabled = true)
      · rw [if_pos hblank]
        cases hocr : ocrPdf env (env.resolve p) with
        | ok tp =>
          exact ⟨_, rfl, fun e he => absurd he (by simp)⟩
        | error e' =>
          exact ⟨_, rfl, fun e he => absurd he (by simp)⟩
      · rw [if_neg hblank]
        exact ⟨_, rfl, fun e he => absurd he (by simp)⟩
    | error e0 =>
      dsimp only
      by_cases hocrEn : env.ocr_enabled = true
      · rw [if_pos hocrEn]
        cases hocr : ocrPdf env (env.resolve p) with
        | ok tp =>
          refine ⟨_, rfl, fun e he => ?_⟩
          have he0 : e0 = e := by simpa using he
          subst he0
          simp [lookupKV]
        | error e' =>
          refine ⟨_, rfl, fun e he => ?_⟩
          have he0 : e0 = e := by simpa using he
          subst he0
          simp [lookupKV]
      · rw [if_neg hocrEn]
        refine ⟨_, rfl, fun e he => ?_⟩
        have he0 : e0 = e := by simpa using he
        subst he0
        simp [lookupKV]
  · intro hft hocr
    have hne : ¬ detectFileType (env.resolve p) = S "pdf" := by
      intro h
      rw [h] at hft
      exact absurd hft (by decide)
    rw [hdispatch, if_neg hne, if_pos hft]
    unfold processImage
    rw [hocr]
    rw [if_pos (by simp)]
    exact ⟨_, rfl, rfl, by simp [lookupKV]⟩
  · intro hne1 hne2
    rw [hdispatch, if_neg hne1, if_neg hne2]
    exact ⟨_, rfl⟩

/-- Witness: an existing PDF whose extraction raises (and whose OCR
fallback is unavailable) still yields a document whose metadata records
the exception text — applied at the base environment. -/
theorem ingestion_soft_failures_witness :
    ∃ d, process baseEnv (S "f.pdf") = .ok d ∧
      (∀ e, baseEnv.pdfOpen (baseEnv.resolve (S "f.pdf")) = .error e →
        lookupKV d.metadata (S "error") = some (MVal.str e)) :=
  (ingestion_soft_failures baseEnv (S "f.pdf") rfl).1 rfl rfl

theorem jsonTables_of_array {content : List Char}
    {kvs : List (List Char × Json)} {rest : List Json}
    (hparse : loads content = some (Json.arr (Json.obj kvs :: rest)))
    (hobjs : ∀ r ∈ rest, r.isObj = true) :
    jsonTables content = [(kvs.map Prod.fst) ::
      (Json.obj kvs :: rest).map
        (fun r => (kvs.map Prod.fst).map (rowCell r))] := by
  unfold jsonTables
  rw [hparse]
  dsimp only
  have hall : (Json.obj kvs :: rest).all Json.isObj = true := by
    rw [List.all_eq_true]
    intro x hx
    rcases List.mem_cons.mp hx with h | h
    · rw [h]; rfl
    · exact hobjs x h
  rw [hall, Bool.or_true, if_pos rfl]

theorem jsonTables_of_parse_failure {content : List Char}
    (hparse : loads content = none) : jsonTables content = [] := by
  unfold jsonTables
  rw [hparse]

/-- C6: ingesting a JSON file whose body parses as a non-empty array of
objects yields exactly one table whose header row is the first object's
keys in their original order and whose data rows stringify each object's
values in that key order (`rowCell`: missing keys render as the empty
string); a body that fails to parse silently yields no tables. -/
theorem json_ingestion_tables :
    (∀ (env : Env) (p : List Char) (kvs : List (List Char × Json))
        (rest : List Json),
      env.fileExists (env.resolve p) = true →
      detectFileType (env.resolve p) = S "json" →
      loads (env.fileContent (env.resolve p)) =
        some (Json.arr (Json.obj kvs :: rest)) →
      (∀ r ∈ rest, r.isObj = true) →
      ∃ d, process env p = .ok d ∧
        d.tables = [(kvs.map Prod.fst) ::
          (Json.obj kvs :: rest).map
            (fun r => (kvs.map Prod.fst).map (rowCell r))] ∧
        (∀ t ∈ d.tables, t.length = rest.length + 2))
    ∧ (∀ (env : Env) (p : List Char),
        env.fileExists (env.resolve p) = true →
        detectFileType (env.resolve p) = S "json" →
        loads (env.fileContent (env.resolve p)) = none →
        ∃ d, process env p = .ok d ∧ d.tables = []) := by
  constructor
  · intro env p kvs rest hex hft hparse hobjs
    have hd : process env p = processText env (env.resolve p) := by
      unfold process
      rw [hex, hft]
      rw [if_neg (by simp), if_neg (by decide), if_neg (by decide)]
    rw [hd]
    unfold processText
    rw [hft, if_neg (by decide), if_pos rfl,
      jsonTables_of_array hparse hobjs]
    refine ⟨_, rfl, rfl, ?_⟩
    intro t ht
    rw [List.mem_singleton] at ht
    rw [ht]
    simp
  · intro env p hex hft hparse
    have hd : process env p = processText env (env.resolve p) := by
      unfold process
      rw [hex, hft]
      rw [if_neg (by simp), if_neg (by decide), if_neg (by decide)]
    rw [hd]
    unfold processText
    rw [hft, if_neg (by decide), if_pos rfl,
      jsonTables_of_parse_failure hparse]
    exact ⟨_, rfl, rfl⟩

/-- The two-object JSON array used by the witness. -/
def jsonArrayBody : List Char :=
  '[' :: ([obr] ++ S "\"a\": 1, \"b\": \"x\"" ++ [cbr] ++ S ", " ++
    [obr] ++ S "\"b\": \"y\", \"a\": 2" ++ [cbr]) ++ [']']

/-- Witness: a JSON array of two objects with identical keys produces one
table — header in the first object's key order, two data rows with the
values stringified in that order. -/
theorem json_ingestion_tables_witness :
    ∃ d, process { baseEnv with fileContent := fun _ => jsonArrayBody }
        (S "data.json") = .ok d ∧
      d.tables = [[[S "a", S "b"], [S "1", S "x"], [S "2", S "y"]]] := by
  obtain ⟨d, hd, ht, _⟩ := json_ingestion_tables.1
    { baseEnv with fileContent := fun _ => jsonArrayBody } (S "data.json")
    [(S "a", Json.num (S "1")), (S "b", Json.str (S "x"))]
    [Json.obj [(S "b", Json.str (S "y")), (S "a", Json.num (S "2"))]]
    rfl (by decide) (by rfl) (by decide)
  exact ⟨d, hd, by rw [ht]; rfl⟩

/-!
Capability tools (src/tools.py).  Each tool is one structured-generation
call followed by permissive `.get` defaults into its typed result; the
result fields keep whatever JSON value the model returned.
-/

/-- Python's `d.get(k, default)` on a parsed JSON mapping. -/
def jGet (m : List (List Char × Json)) (k : List Char) (d : Json) : Json :=
  (lookupKV m k).getD d

/-- The float `0.0` used as the missing-confidence default. -/
def jZero : Json := Json.num (S "0.0")

/-- `ExtractionResult` of the field-extraction tool. -/
structure ExtractionResult where
  fields : Json
  form_type : Option Json
  confidence : Json
  reasoning : Json

/-- Result mapping of `FieldExtractionTool.run` (tools.py 172-177). -/
def fieldExtractionFromResp (m : List (List Char × Json)) : ExtractionResult where
  fields := jGet m (S "fields") (Json.obj [])
  form_type := lookupKV m (S "form_type")
  confidence := jGet m (S "confidence") jZero
  reasoning := jGet m (S "reasoning") (Json.str [])

/-- `QAResult` of the question-answering tool. -/
structure QAResult where
  answer : Json
  confidence : Json
  evidence : Json
  reasoning : Json

/-- Result mapping of `QuestionAnsweringTool.run` (tools.py 277-282). -/
def qaFromResp (m : List (List Char × Json)) : QAResult where
  answer := jGet m (S "answer") (Json.str (S "Unable to determine"))
  confidence := jGet m (S "confidence") jZero
  evidence := jGet m (S "evidence") (Json.arr [])
  reasoning := jGet m (S "reasoning") (Json.str [])

/-- `SummaryResult` of the summarization tool. -/
structure SummaryResult where
  summary : Json
  key_points : Json
  form_type : Json
  important_values : Json

/-- Result mapping of `SummarizationTool.run` (tools.py 384-389). -/
def summaryFromResp (m : List (List Char × Json)) : SummaryResult where
  summary := jGet m (S "summary") (Json.str [])
  key_points := jGet m (S "key_points") (Json.arr [])
  form_type := jGet m (S "form_type") (Json.str (S "unknown"))
  important_values := jGet m (S "important_values") (Json.obj [])

/-- `AnalysisResult` of the cross-document analysis tool. -/
structure AnalysisResult where
  answer : Json
  insights : Json
  comparisons : Json
  statistics : Json

/-- Result mapping of `CrossDocumentAnalysisTool.run` (tools.py 499-504). -/
def analysisFromResp (m : List (List Char × Json)) : AnalysisResult where
  answer := jGet m (S "answer") (Json.str [])
  insights := jGet m (S "insights") (Json.arr [])
  comparisons := jGet m (S "comparisons") (Json.obj [])
  statistics := jGet m (S "statistics") (Json.obj [])

/-- Counterexample to C5 as stated: a model response that parses as the
JSON mapping with an explicit null `evidence` value passes the null
through — `.get` defaults fire only for missing keys, so the QA result's
list field is null, not an empty sequence. -/
theorem tool_null_passthrough_counterexample :
    (qaFromResp [(S "evidence", Json.null)]).evidence = Json.null
    ∧ Json.null.isObj = false := ⟨rfl, rfl⟩

/-- C5 (amended): for every response that parses as a JSON mapping, the
tool mappings are total and fill each missing key with its neutral
default — missing confidence becomes 0.0, missing list fields the empty
list, missing mapping fields the empty mapping, missing strings their
documented fallbacks — so list/mapping fields are non-null whenever the
response omits them (an explicit null present in the response is passed
through unchanged). -/
theorem tool_missing_key_defaults (m : List (List Char × Json)) :
    (lookupKV m (S "fields") = none →
      (fieldExtractionFromResp m).fields = Json.obj [])
    ∧ (lookupKV m (S "form_type") = none →
        (fieldExtractionFromResp m).form_type = none)
    ∧ (lookupKV m (S "confidence") = none →
        (fieldExtractionFromResp m).confidence = jZero)
    ∧ (lookupKV m (S "reasoning") = none →
        (fieldExtractionFromResp m).reasoning = Json.str [])
    ∧ (lookupKV m (S "answer") = none →
        (qaFromResp m).answer = Json.str (S "Unable to determine"))
    ∧ (lookupKV m (S "confidence") = none →
        (qaFromResp m).confidence = jZero)
    ∧ (lookupKV m (S "evidence") = none →
        (qaFromResp m).evidence = Json.arr [])
    ∧ (lookupKV m (S "reasoning") = none →
        (qaFromResp m).reasoning = Json.str [])
    ∧ (lookupKV m (S "summary") = none →
        (summaryFromResp m).summary = Json.str [])
    ∧ (lookupKV m (S "key_points") = none →
        (summaryFromResp m).key_points = Json.arr [])
    ∧ (lookupKV m (S "form_type") = none →
        (summaryFromResp m).form_type = Json.str (S "unknown"))
    ∧ (lookupKV m (S "important_values") = none →
        (summaryFromResp m).important_values = Json.obj [])
    ∧ (lookupKV m (S "answer") = none →
        (analysisFromResp m).answer = Json.str [])
    ∧ (lookupKV m (S "insights") = none →
        (analysisFromResp m).insights = Json.arr [])
    ∧ (lookupKV m (S "comparisons") = none →
        (analysisFromResp m).comparisons = Json.obj [])
    ∧ (lookupKV m (S "statistics") = none →
        (analysisFromResp m).statistics = Json.obj []) := by
  refine ⟨?_, ?_, ?_, ?_, ?_, ?_, ?_, ?_, ?_, ?_, ?_, ?_, ?_, ?_, ?_, ?_⟩ <;>
    (intro h
     simp [fieldExtractionFromResp, qaFromResp, summaryFromResp,
       analysisFromResp, jGet, h])

/-- Witness: the empty mapping (every key omitted) yields exactly the
neutral defaults. -/
theorem tool_missing_key_defaults_witness :
    (fieldExtractionFromResp []).confidence = jZero
    ∧ (qaFromResp []).evidence = Json.arr []
    ∧ (summaryFromResp []).key_points = Json.arr []
    ∧ (analysisFromResp []).statistics = Json.obj [] :=
  ⟨(tool_missing_key_defaults []).2.2.1 rfl,
   (tool_missing_key_defaults []).2.2.2.2.2.2.1 rfl,
   (tool_missing_key_defaults []).2.2.2.2.2.2.2.2.2.1 rfl,
   (tool_missing_key_defaults []).2.2.2.2.2.2.2.2.2.2.2.2.2.2.2 rfl⟩

/-!
Orchestrator (src/agent.py).  The language model is a deterministic
oracle producing the raw text response to each tool's prompt, as a
function of the data the prompt interpolates; the agent's mutable state
(the path-keyed form cache and the model-call counter) is threaded
explicitly.
-/

/-- `ProcessedForm` (agent.py 58-69; the `processed_at` timestamp is
outside the embedding). -/
structure ProcessedForm where
  file_path : List Char
  file_type : List Char
  raw_text : List Char
  extracted_fields : Json
  form_type : Option Json
  extraction_confidence : Json
  tables : List (List (List (List Char)))
  metadata : List (List Char × MVal)

/-- The mutable state of `IntelligentFormAgent`: `_processed_forms` and
`total_llm_calls`. -/
structure AgentState where
  cache : List (List Char × ProcessedForm)
  totalLlmCalls : Nat

/-- Agent state right after `__init__`. -/
def initialAgentState : AgentState where
  cache := []
  totalLlmCalls := 0

/-- Agent-level exceptions: propagated ingestion errors, decode failures
(`MalformedOutput`), a non-mapping JSON reply (whose `.get` raises
`AttributeError`), and a missing `task_type` key (`KeyError`). -/
inductive AgentErr where
  | ingest (e : IngestErr)
  | malformed (e : DecodeErr)
  | attrError
  | keyError

/-- The model oracle: raw text responses to the five prompt families. -/
structure AgentEnv where
  env : Env
  extractResp : ExtractedDocument → List Char
  qaResp : List Char → ExtractedDocument → Json → List Char
  summaryResp : ExtractedDocument → Json → List Char → List Char
  analysisResp : List Char → List ExtractedDocument → List Json → List Char
  classifyResp : List Char → Option (List Char) → Nat → List Char

/-- Decode a raw tool response and require a JSON mapping (`.get` on a
non-mapping raises `AttributeError` in the Python). -/
def decodeMapping (raw : List Char) :
    Except AgentErr (List (List Char × Json)) :=
  match generateStructuredDecode raw with
  | .error e => .error (.malformed e)
  | .ok (Json.obj m) => .ok m
  | .ok _ => .error .attrError

/-- `FieldExtractionTool.run`: one structured call, then defaults. -/
def extractionToolRun (A : AgentEnv) (doc : ExtractedDocument) :
    Except AgentErr ExtractionResult :=
  (decodeMapping (A.extractResp doc)).map fieldExtractionFromResp

/-- The `ExtractedDocument` view `ask`/`summarize`/`analyze` rebuild from
a cached form (agent.py 242-248). -/
def formToDoc (f : ProcessedForm) : ExtractedDocument where
  file_path := f.file_path
  file_type := f.file_type
  raw_text := f.raw_text
  tables := f.tables
  metadata := f.metadata

/-- The `ProcessedForm` built by `process_form` (agent.py 188-200): the
caller-supplied path string, the extracted document's content, the
extraction tool's fields, and the reasoning merged into the metadata. -/
def mkForm (file_path : List Char) (extracted : ExtractedDocument)
    (er : ExtractionResult) : ProcessedForm where
  file_path := file_path
  file_type := extracted.file_type
  raw_text := extracted.raw_text
  extracted_fields := er.fields
  form_type := er.form_type
  extraction_confidence := er.confidence
  tables := extracted.tables
  metadata := insertKV extracted.metadata
    (S "extraction_reasoning") (MVal.json er.reasoning)

/-- `IntelligentFormAgent.process_form`, cache-miss path: ingestion, one
field-extraction call, counter increment, wholesale cache write. -/
def processFormMiss (A : AgentEnv) (st : AgentState) (file_path : List Char) :
    Except AgentErr (ProcessedForm × AgentState) :=
  match process A.env file_path with
  | .error e => .error (.ingest e)
  | .ok extracted =>
    match extractionToolRun A extracted with
    | .error e => .error e
    | .ok er =>
      .ok (mkForm file_path extracted er,
           { cache := insertKV st.cache file_path
               (mkForm file_path extracted er),
             totalLlmCalls := st.totalLlmCalls + 1 })

/-- `IntelligentFormAgent.process_form` (agent.py 151-205): return the
cached form unless absent or `force_reprocess` is set. -/
def processForm (A : AgentEnv) (st : AgentState) (file_path : List Char)
    (force_reprocess : Bool) : Except AgentErr (ProcessedForm × AgentState) :=
  match force_reprocess, lookupKV st.cache file_path with
  | false, some form => .ok (form, st)
  | _, _ => processFormMiss A st file_path

/-- `IntelligentFormAgent.process_forms`: sequential, cache-aware. -/
def processForms (A : AgentEnv) (st : AgentState) :
    List (List Char) → Except AgentErr (List ProcessedForm × AgentState)
  | [] => .ok ([], st)
  | p :: ps =>
    match processForm A st p false with
    | .error e => .error e
    | .ok (f, st') =>
      match processForms A st' ps with
      | .error e => .error e
      | .ok (fs, st'') => .ok (f :: fs, st'')

/-- `IntelligentFormAgent.ask`: one QA tool call plus counter bump. -/
def ask (A : AgentEnv) (st : AgentState) (question : List Char)
    (f : ProcessedForm) : Except AgentErr (QAResult × AgentState) :=
  (decodeMapping (A.qaResp question (formToDoc f) f.extracted_fields)).map
    (fun m => (qaFromResp m,
      { st with totalLlmCalls := st.totalLlmCalls + 1 }))

/-- `IntelligentFormAgent.summarize`: one summarization call plus bump. -/
def summarize (A : AgentEnv) (st : AgentState) (f : ProcessedForm)
    (style : List Char) : Except AgentErr (SummaryResult × AgentState) :=
  (decodeMapping (A.summaryResp (formToDoc f) f.extracted_fields style)).map
    (fun m => (summaryFromResp m,
      { st with totalLlmCalls := st.totalLlmCalls + 1 }))

/-- `IntelligentFormAgent.analyze` (also the target of `ask_multiple`):
one cross-document call plus bump. -/
def analyze (A : AgentEnv) (st : AgentState) (question : List Char)
    (forms : List ProcessedForm) :
    Except AgentErr (AnalysisResult × AgentState) :=
  (decodeMapping (A.analysisResp question (forms.map formToDoc)
      (forms.map (fun f => f.extracted_fields)))).map
    (fun m => (analysisFromResp m,
      { st with totalLlmCalls := st.totalLlmCalls + 1 }))

/-- Summarize every form in order (the `summarize`/fallback branches of
`run_workflow`). -/
def summarizeAll (A : AgentEnv) :
    AgentState → List ProcessedForm → Except AgentErr AgentState
  | st, [] => .ok st
  | st, f :: fs =>
    match summarize A st f (S "detailed") with
    | .error e => .error e
    | .ok (_, st') => summarizeAll A st' fs

/-- `IntelligentFormAgent._analyze_task`: one classification call with a
closed-enum schema, plus counter bump. -/
def analyzeTask (A : AgentEnv) (st : AgentState) (task : List Char)
    (question : Option (List Char)) (numDocs : Nat) :
    Except AgentErr (List (List Char × Json) × AgentState) :=
  (decodeMapping (A.classifyResp task question numDocs)).map
    (fun m => (m, { st with totalLlmCalls := st.totalLlmCalls + 1 }))

/-- Python's `question or task` (an empty question string is falsy). -/
def questionOr (question : Option (List Char)) (task : List Char) :
    List Char :=
  match question with
  | some q => if q.isEmpty then task else q
  | none => task

/-- Which branch of `run_workflow` handled the task. -/
inductive Route where
  | extractR | qaSingle | qaMulti | summarizeR | analyzeR | generalR
  deriving DecidableEq

/-- The unrecognised-category fallback of `run_workflow` ("general":
summarize every document). -/
def runGeneral (A : AgentEnv) (st : AgentState) (forms : List ProcessedForm) :
    Except AgentErr (Route × AgentState) :=
  match summarizeAll A st forms with
  | .error e => .error e
  | .ok st' => .ok (.generalR, st')

/-- `IntelligentFormAgent.run_workflow` (agent.py 427-511): process every
path through the cache, classify the task with one model call, then
branch — `qa` routes to single-document QA exactly when `len(forms)` is
1 and to multi-document analysis otherwise.  The returned `Route` names
the branch taken; the state carries the call accounting. -/
def runWorkflow (A : AgentEnv) (st : AgentState) (task : List Char)
    (file_paths : List (List Char)) (question : Option (List Char)) :
    Except AgentErr (Route × AgentState) :=
  match processForms A st file_paths with
  | .error e => .error e
  | .ok (forms, st1) =>
    match analyzeTask A st1 task question forms.length with
    | .error e => .error e
    | .ok (m, st2) =>
      match lookupKV m (S "task_type") with
      | none => .error .keyError
      | some (Json.str t) =>
        if t = S "extract" then .ok (.extractR, st2)
        else if t = S "qa" then
          match forms with
          | [f] =>
            (match ask A st2 (questionOr question task) f with
             | .error e => .error e
             | .ok (_, st3) => .ok (.qaSingle, st3))
          | _ =>
            (match analyze A st2 (questionOr question task) forms with
             | .error e => .error e
             | .ok (_, st3) => .ok (.qaMulti, st3))
        else if t = S "summarize" then
          match summarizeAll A st2 forms with
          | .error e => .error e
          | .ok st3 => .ok (.summarizeR, st3)
        else if t = S "analyze" then
          match analyze A st2 (questionOr question task) forms with
          | .error e => .error e
          | .ok (_, st3) => .ok (.analyzeR, st3)
        else runGeneral A st2 forms
      | some _ => runGeneral A st2 forms

/-- The branch `run_workflow` takes, when it succeeds. -/
def routeOf (A : AgentEnv) (st : AgentState) (task : List Char)
    (file_paths : List (List Char)) (question : Option (List Char)) :
    Option Route :=
  match runWorkflow A st task file_paths question with
  | .ok (r, _) => some r
  | .error _ => none

/-- The `task_type` value the classifier's decoded mapping carries. -/
def classifiedType (A : AgentEnv) (task : List Char)
    (question : Option (List Char)) (n : Nat) : Option Json :=
  match decodeMapping (A.classifyResp task question n) with
  | .ok m => lookupKV m (S "task_type")
  | .error _ => none

/-- `IntelligentFormAgent.get_stats`: call count, cached-form count, and
cached paths. -/
def getStats (st : AgentState) : Nat × Nat × List (List Char) :=
  (st.totalLlmCalls, st.cache.length, st.cache.map Prod.fst)

/-- `IntelligentFormAgent.clear_cache`: `self._processed_forms.clear()`. -/
def clearCache (st : AgentState) : AgentState :=
  { st with cache := [] }

/-! Cache-lemma battery for the orchestrator claims. -/

theorem lookup_insert_self {β : Type} (l : List (List Char × β))
    (k : List Char) (v : β) : lookupKV (insertKV l k v) k = some v := by
  induction l with
  | nil => simp [insertKV, lookupKV]
  | cons e rest ih =>
    obtain ⟨k', v'⟩ := e
    by_cases h : k' = k
    · simp [insertKV, lookupKV, h]
    · simp [insertKV, lookupKV, h, ih]

theorem lookup_insert_ne {β : Type} (l : List (List Char × β))
    (k k' : List Char) (v : β) (h : k' ≠ k) :
    lookupKV (insertKV l k v) k' = lookupKV l k' := by
  have hcond : ¬ k = k' := fun he => h he.symm
  induction l with
  | nil => simp [insertKV, lookupKV, hcond]
  | cons e rest ih =>
    obtain ⟨k'', v''⟩ := e
    by_cases h2 : k'' = k
    · subst h2
      simp [insertKV, lookupKV, hcond]
    · simp [insertKV, lookupKV, h2, ih]

theorem processForm_of_miss {A : AgentEnv} {st : AgentState} {p : List Char}
    (hmiss : lookupKV st.cache p = none) :
    processForm A st p false = processFormMiss A st p := by
  unfold processForm
  rw [hmiss]

theorem processForm_of_hit {A : AgentEnv} {st : AgentState} {p : List Char}
    {f : ProcessedForm} (hhit : lookupKV st.cache p = some f) :
    processForm A st p false = .ok (f, st) := by
  unfold processForm
  rw [hhit]

theorem processForm_forced {A : AgentEnv} {st : AgentState} {p : List Char} :
    processForm A st p true = processFormMiss A st p := by
  unfold processForm
  cases lookupKV st.cache p <;> rfl

theorem processFormMiss_inv {A : AgentEnv} {st : AgentState} {p : List Char}
    {f : ProcessedForm} {st' : AgentState}
    (h : processFormMiss A st p = .ok (f, st')) :
    ∃ doc er, process A.env p = .ok doc ∧ extractionToolRun A doc = .ok er ∧
      f = mkForm p doc er ∧
      st' = { cache := insertKV st.cache p (mkForm p doc er),
              totalLlmCalls := st.totalLlmCalls + 1 } := by
  unfold processFormMiss at h
  cases hdoc : process A.env p with
  | error e => rw [hdoc] at h; exact absurd h (by simp)
  | ok doc =>
    rw [hdoc] at h
    dsimp only at h
    cases her : extractionToolRun A doc with
    | error e => rw [her] at h; exact absurd h (by simp)
    | ok er =>
      rw [her] at h
      dsimp only at h
      simp only [Except.ok.injEq, Prod.mk.injEq] at h
      exact ⟨doc, er, rfl, her, h.1.symm, h.2.symm⟩

/-- Ingestion depends on the caller's path string only through its
resolution (`document_processor.process` resolves first). -/
theorem process_resolve_congr {env : Env} {p1 p2 : List Char}
    (h : env.resolve p1 = env.resolve p2) :
    process env p1 = process env p2 := by
  unfold process
  rw [h]

/-- C1: the at-most-one-extraction cache invariant of `process_form`.  A
first call on an uncached path makes exactly one model call and caches
the form; a second unforced call is a pure cache hit (same form, same
state, no new call); a forced call makes exactly one further model call
and replaces the cache entry for that path wholesale. -/
theorem process_form_at_most_one_call (A : AgentEnv) (st : AgentState)
    (p : List Char) (f : ProcessedForm) (st1 : AgentState)
    (hmiss : lookupKV st.cache p = none)
    (h1 : processForm A st p false = .ok (f, st1)) :
    st1.totalLlmCalls = st.totalLlmCalls + 1
    ∧ lookupKV st1.cache p = some f
    ∧ processForm A st1 p false = .ok (f, st1)
    ∧ ∀ g st2, processForm A st1 p true = .ok (g, st2) →
        st2.totalLlmCalls = st1.totalLlmCalls + 1
        ∧ lookupKV st2.cache p = some g := by
  rw [processForm_of_miss hmiss] at h1
  obtain ⟨doc, er, hdoc, her, hf, hst1⟩ := processFormMiss_inv h1
  subst hf
  subst hst1
  refine ⟨rfl, lookup_insert_self _ _ _, ?_, ?_⟩
  · exact processForm_of_hit (lookup_insert_self _ _ _)
  · intro g st2 h2
    rw [processForm_forced] at h2
    obtain ⟨doc2, er2, hdoc2, her2, hg, hst2⟩ := processFormMiss_inv h2
    have hdd : doc = doc2 := by
      have h3 := hdoc.symm.trans hdoc2
      simpa using h3
    subst hdd
    have hee : er = er2 := by
      have h3 := her.symm.trans her2
      simpa using h3
    subst hee
    subst hg
    subst hst2
    exact ⟨rfl, lookup_insert_self _ _ _⟩

/-- Witness data: the form produced for an empty text file with the
`\x7b\x7d` extraction reply. -/
def formW (p : List Char) : ProcessedForm where
  file_path := p
  file_type := S "txt"
  raw_text := []
  extracted_fields := Json.obj []
  form_type := none
  extraction_confidence := jZero
  tables := []
  metadata := [(S "char_count", MVal.nat 0), (S "line_count", MVal.nat 1),
               (S "extraction_reasoning", MVal.json (Json.str []))]

/-- The literal `\x7b\x7d` response text. -/
def emptyObjText : List Char := [obr, cbr]

/-- Model oracle for witnesses: empty-mapping replies everywhere and a
`task_type: qa` classification. -/
def agentEnvW : AgentEnv where
  env := baseEnv
  extractResp := fun _ => emptyObjText
  qaResp := fun _ _ _ => emptyObjText
  summaryResp := fun _ _ _ => emptyObjText
  analysisResp := fun _ _ _ => emptyObjText
  classifyResp := fun _ _ _ => [obr] ++ S "\"task_type\": \"qa\"" ++ [cbr]

/-- State after one processed form. -/
def stW : AgentState where
  cache := [(S "a.txt", formW (S "a.txt"))]
  totalLlmCalls := 1

/-- State after the forced second extraction. -/
def stW2 : AgentState where
  cache := [(S "a.txt", formW (S "a.txt"))]
  totalLlmCalls := 2

/-- Witness: the cache invariant at a concrete agent run. -/
theorem process_form_at_most_one_call_witness :
    stW.totalLlmCalls = initialAgentState.totalLlmCalls + 1
    ∧ lookupKV stW.cache (S "a.txt") = some (formW (S "a.txt"))
    ∧ processForm agentEnvW stW (S "a.txt") false =
        .ok (formW (S "a.txt"), stW)
    ∧ (stW2.totalLlmCalls = stW.totalLlmCalls + 1
        ∧ lookupKV stW2.cache (S "a.txt") = some (formW (S "a.txt"))) := by
  have h := process_form_at_most_one_call agentEnvW initialAgentState
    (S "a.txt") (formW (S "a.txt")) stW rfl rfl
  exact ⟨h.1, h.2.1, h.2.2.1, h.2.2.2 (formW (S "a.txt")) stW2 rfl⟩

/-- C9: `clear_cache` empties the form cache (the cached-form count
reported by `get_stats` becomes zero) and modifies nothing else — the
call counter, the only other orchestrator state, is carried over
unchanged. -/
theorem clear_cache_frame (st : AgentState) :
    clearCache st = { cache := [], totalLlmCalls := st.totalLlmCalls }
    ∧ (getStats (clearCache st)).2.1 = 0
    ∧ (getStats (clearCache st)).1 = (getStats st).1 :=
  ⟨rfl, rfl, rfl⟩

/-- C10: the cache is keyed by the exact caller-supplied path string
while ingestion resolves internally — two spellings of one file make two
model calls and two independent cache entries holding the same extracted
content under different `file_path`s. -/
theorem cache_keyed_by_supplied_path (A : AgentEnv) (st : AgentState)
    (p1 p2 : List Char) (f1 f2 : ProcessedForm) (st1 st2 : AgentState)
    (hne : p1 ≠ p2)
    (hres : A.env.resolve p1 = A.env.resolve p2)
    (hm1 : lookupKV st.cache p1 = none)
    (hm2 : lookupKV st.cache p2 = none)
    (h1 : processForm A st p1 false = .ok (f1, st1))
    (h2 : processForm A st1 p2 false = .ok (f2, st2)) :
    st2.totalLlmCalls = st.totalLlmCalls + 2
    ∧ lookupKV st2.cache p1 = some f1
    ∧ lookupKV st2.cache p2 = some f2
    ∧ f1.file_path = p1 ∧ f2.file_path = p2
    ∧ f1.raw_text = f2.raw_text
    ∧ f1.extracted_fields = f2.extracted_fields := by
  rw [processForm_of_miss hm1] at h1
  obtain ⟨doc1, er1, hdoc1, her1, hf1, hst1⟩ := processFormMiss_inv h1
  have hm2' : lookupKV st1.cache p2 = none := by
    rw [hst1]
    dsimp only
    rw [lookup_insert_ne _ _ _ _ (fun he => hne he.symm)]
    exact hm2
  rw [processForm_of_miss hm2'] at h2
  obtain ⟨doc2, er2, hdoc2, her2, hf2, hst2⟩ := processFormMiss_inv h2
  have hdd : doc1 = doc2 := by
    have h3 := hdoc1.symm.trans ((process_resolve_congr hres).trans hdoc2)
    simpa using h3
  subst hdd
  have hee : er1 = er2 := by
    have h3 := her1.symm.trans her2
    simpa using h3
  subst hee
  subst hf1
  subst hf2
  subst hst1
  subst hst2
  refine ⟨rfl, ?_, lookup_insert_self _ _ _, rfl, rfl, rfl, rfl⟩
  rw [lookup_insert_ne _ _ _ _ hne]
  dsimp only
  exact lookup_insert_self _ _ _

/-- Environment in which `./b.txt` and `b.txt` resolve to one file. -/
def envTwoNames : Env :=
  { baseEnv with
    resolve := fun p => if p = S "./b.txt" then S "b.txt" else p }

/-- The witness oracle over the two-spelling environment. -/
def agentEnvTwoNames : AgentEnv := { agentEnvW with env := envTwoNames }

/-- State after processing the relative spelling. -/
def stTN1 : AgentState where
  cache := [(S "./b.txt", formW (S "./b.txt"))]
  totalLlmCalls := 1

/-- State after additionally processing the absolute spelling. -/
def stTN2 : AgentState where
  cache := [(S "./b.txt", formW (S "./b.txt")), (S "b.txt", formW (S "b.txt"))]
  totalLlmCalls := 2

/-- Witness: two spellings of one file yield two cache entries and two
model calls, with identical extracted content under each path string. -/
theorem cache_keyed_by_supplied_path_witness :
    stTN2.totalLlmCalls = initialAgentState.totalLlmCalls + 2
    ∧ lookupKV stTN2.cache (S "./b.txt") = some (formW (S "./b.txt"))
    ∧ lookupKV stTN2.cache (S "b.txt") = some (formW (S "b.txt"))
    ∧ (formW (S "./b.txt")).file_path = S "./b.txt"
    ∧ (formW (S "b.txt")).file_path = S "b.txt"
    ∧ (formW (S "./b.txt")).raw_text = (formW (S "b.txt")).raw_text
    ∧ (formW (S "./b.txt")).extracted_fields =
        (formW (S "b.txt")).extracted_fields :=
  cache_keyed_by_supplied_path agentEnvTwoNames initialAgentState
    (S "./b.txt") (S "b.txt") (formW (S "./b.txt")) (formW (S "b.txt"))
    stTN1 stTN2 (by decide) rfl rfl rfl rfl rfl

/-- `processForms` returns one form per path when it succeeds. -/
theorem processForms_length {A : AgentEnv} :
    ∀ {paths : List (List Char)} {st : AgentState}
      {forms : List ProcessedForm} {st' : AgentState},
      processForms A st paths = .ok (forms, st') →
      forms.length = paths.length := by
  intro paths
  induction paths with
  | nil =>
    intro st forms st' h
    unfold processForms at h
    simp only [Except.ok.injEq, Prod.mk.injEq] at h
    rw [← h.1]
    rfl
  | cons p ps ih =>
    intro st forms st' h
    unfold processForms at h
    cases h1 : processForm A st p false with
    | error e => rw [h1] at h; exact absurd h (by simp)
    | ok fs1 =>
      rw [h1] at h
      obtain ⟨f, st1⟩ := fs1
      dsimp only at h
      cases h2 : processForms A st1 ps with
      | error e => rw [h2] at h; exact absurd h (by simp)
      | ok out =>
        rw [h2] at h
        obtain ⟨fs, st2⟩ := out
        dsimp only at h
        simp only [Except.ok.injEq, Prod.mk.injEq] at h
        rw [← h.1]
        simp [ih h2]

/-- Counterexample to C7 as stated: with zero documents and a `qa`
classification, `run_workflow` takes the multi-document analysis branch,
although the document count is not 2 or more. -/
theorem run_workflow_zero_docs_counterexample :
    runWorkflow agentEnvW initialAgentState (S "compare the forms") [] none =
      .ok (.qaMulti, { cache := [], totalLlmCalls := 2 })
    ∧ ¬ 2 ≤ ([] : List (List Char)).length :=
  ⟨rfl, by decide⟩

/-- C7 (amended): whenever the task is classified `qa` and the workflow
succeeds, it routes to the single-document question-answering path
exactly when the document count is 1, and to the multi-document analysis
path exactly when it is not 1 (all counts of 2 or more, and degenerately
the empty batch); in particular a single document is never sent down the
multi-document path. -/
theorem run_workflow_qa_routing (A : AgentEnv) (st : AgentState)
    (task : List Char) (paths : List (List Char))
    (question : Option (List Char)) (r : Route)
    (hq : classifiedType A task question paths.length =
      some (Json.str (S "qa")))
    (hr : routeOf A st task paths question = some r) :
    (r = .qaSingle ↔ paths.length = 1)
    ∧ (r = .qaMulti ↔ paths.length ≠ 1) := by
  unfold routeOf at hr
  cases hw : runWorkflow A st task paths question with
  | error e => simp [hw] at hr
  | ok out =>
    rw [hw] at hr
    obtain ⟨r0, st0⟩ := out
    dsimp only at hr
    simp only [Option.some.injEq] at hr
    subst hr
    unfold runWorkflow at hw
    cases hpf : processForms A st paths with
    | error e => simp [hpf] at hw
    | ok out1 =>
      rw [hpf] at hw
      obtain ⟨forms, st1⟩ := out1
      dsimp only at hw
      have hlen : forms.length = paths.length := processForms_length hpf
      unfold analyzeTask at hw
      cases hdm : decodeMapping (A.classifyResp task question forms.length) with
      | error e => simp [hdm, Except.map] at hw
      | ok m =>
        rw [hdm] at hw
        dsimp only [Except.map] at hw
        have htt : lookupKV m (S "task_type") = some (Json.str (S "qa")) := by
          unfold classifiedType at hq
          rw [hlen] at hdm
          rw [hdm] at hq
          exact hq
        rw [htt] at hw
        dsimp only at hw
        rw [if_neg (by decide), if_pos rfl] at hw
        generalize AgentState.mk st1.cache (st1.totalLlmCalls + 1) = st2 at hw
        cases forms with
        | nil =>
          cases ha : analyze A st2 (questionOr question task) [] with
          | error e =>
            rw [ha] at hw
            exact absurd hw (by simp)
          | ok out2 =>
            rw [ha] at hw
            obtain ⟨res, st3⟩ := out2
            dsimp only at hw
            simp only [Except.ok.injEq, Prod.mk.injEq] at hw
            rw [← hw.1]
            have h0 : paths.length = 0 := by rw [← hlen]; rfl
            rw [h0]
            refine ⟨by simp, by simp⟩
        | cons f fs =>
          cases fs with
          | nil =>
            dsimp only at hw
            cases ha : ask A st2 (questionOr question task) f with
            | error e =>
              rw [ha] at hw
              exact absurd hw (by simp)
            | ok out2 =>
              rw [ha] at hw
              obtain ⟨res, st3⟩ := out2
              dsimp only at hw
              simp only [Except.ok.injEq, Prod.mk.injEq] at hw
              rw [← hw.1]
              have h1 : paths.length = 1 := by rw [← hlen]; rfl
              rw [h1]
              refine ⟨by simp, by simp⟩
          | cons g gs =>
            dsimp only at hw
            cases ha : analyze A st2 (questionOr question task)
                (f :: g :: gs) with
            | error e =>
              rw [ha] at hw
              exact absurd hw (by simp)
            | ok out2 =>
              rw [ha] at hw
              obtain ⟨res, st3⟩ := out2
              dsimp only at hw
              simp only [Except.ok.injEq, Prod.mk.injEq] at hw
              rw [← hw.1]
              have h2 : paths.length = gs.length + 2 := by
                rw [← hlen]; rfl
              rw [h2]
              refine ⟨by simp, by simp⟩

/-- Witness: the routing iff at a one-document batch (single-document
path) and a two-document batch (multi-document path). -/
theorem run_workflow_qa_routing_witness :
    ((Route.qaSingle = Route.qaSingle ↔
        ([S "a.txt"] : List (List Char)).length = 1)
      ∧ (Route.qaSingle = Route.qaMulti ↔
          ([S "a.txt"] : List (List Char)).length ≠ 1))
    ∧ ((Route.qaMulti = Route.qaSingle ↔
        ([S "a.txt", S "b.txt"] : List (List Char)).length = 1)
      ∧ (Route.qaMulti = Route.qaMulti ↔
          ([S "a.txt", S "b.txt"] : List (List Char)).length ≠ 1)) :=
  ⟨run_workflow_qa_routing agentEnvW initialAgentState (S "question")
      [S "a.txt"] none .qaSingle rfl rfl,
   run_workflow_qa_routing agentEnvW initialAgentState (S "question")
      [S "a.txt", S "b.txt"] none .qaMulti rfl rfl⟩

end FormAnalyser
